import Mathlib

/-!
Verification of the OAuth relay/broker core of a personal MCP gateway.

The shallow embedding below translates the Azure OAuth callback handler
(`src/handlers/azureauth.ts`), the authentication and user-authorization
middleware (`src/handlers/common.ts`), the configuration parsing
(`src/config.ts`) and the record types (`src/types.ts`) into Lean.
The shared-store operations implemented in `src/services/auth.ts`
(pending-authorization consume, token-exchange publish/redeem,
installation save/read) are not part of the provided sources; each of
those is modelled from the specification and marked as such in its
doc comment.  The shared store is modelled as a record of keyed maps,
and concurrency-sensitive operations (atomic read-delete, atomic
check-and-set redemption) are modelled as single atomic steps on that
state, so any interleaving of callers is a sequence of such steps.
-/

/-- Update one key of a keyed map (a Redis-style key space). -/
def setKey {α : Type} (m : String → Option α) (k : String) (v : Option α) : String → Option α :=
  fun x => if x = k then v else m x

/-- JavaScript truthiness on an optional string: absent and empty are falsy. -/
def truthyOpt : Option String → Option String
  | none => none
  | some s => if s = "" then none else some s

/-- Strip `pat` from the front of `l` when it is a prefix, returning the
remainder. -/
def stripAt (pat l : List Char) : Option (List Char) :=
  match pat, l with
  | [], rest => some rest
  | _ :: _, [] => none
  | p :: ps, c :: cs => if c = p then stripAt ps cs else none

/-- Remove the first occurrence of `pat` from a character list. -/
def removeFirst (pat : List Char) : List Char → List Char
  | [] => []
  | c :: cs =>
    match stripAt pat (c :: cs) with
    | some rest => rest
    | none => c :: removeFirst pat cs

/-- JavaScript `String.replace` with a string pattern replaces only the
first occurrence; this models removing the first occurrence of `pat`
from `s`. -/
def replaceFirst (s pat : String) : String :=
  String.mk (removeFirst pat.data s.data)

/-- JavaScript `String.prototype.toLowerCase` (on the character range
the code compares, character-wise lowering suffices). -/
def jsToLower (s : String) : String :=
  String.mk (s.data.map Char.toLower)

/-- Drop leading and trailing whitespace from a character list. -/
def trimChars (l : List Char) : List Char :=
  ((l.dropWhile Char.isWhitespace).reverse.dropWhile Char.isWhitespace).reverse

/-- JavaScript `String.prototype.trim`. -/
def jsTrim (s : String) : String :=
  String.mk (trimChars s.data)

/-- Accumulator loop for comma splitting. -/
def splitCommasAux (acc : List Char) : List Char → List (List Char)
  | [] => [acc.reverse]
  | c :: cs =>
    if c = ',' then acc.reverse :: splitCommasAux [] cs
    else splitCommasAux (c :: acc) cs

/-- JavaScript `String.prototype.split` with the `","` separator. -/
def jsSplitCommas (s : String) : List String :=
  (splitCommasAux [] s.data).map String.mk

/-- The fields of an msal-node `AccountInfo` used by the handler. -/
structure AccountInfo where
  homeAccountId : String
  localAccountId : String
deriving DecidableEq

/-- The fields of the msal-node token response used by the handler
(`acquireTokenByCode` result).  `expiresOn` is an abstract timestamp. -/
structure AzureTokenResponse where
  accessToken : String
  idToken : Option String
  account : Option AccountInfo
  expiresOn : Option Nat
deriving DecidableEq

/-- Broker-issued token pair (`OAuthTokens` as used by the handlers). -/
structure McpTokens where
  access_token : String
  refresh_token : Option String
deriving DecidableEq

/-- `PendingAuthorization` from `src/types.ts`: one in-flight client
authorization attempt, keyed by the broker authorization code. -/
structure PendingAuthorization where
  redirectUri : String
  codeChallenge : String
  codeChallengeMethod : String
  clientId : String
  state : Option String
deriving DecidableEq

/-- `TokenExchange` from `src/types.ts`: outcome of a completed upstream
handshake, keyed by the broker authorization code. -/
structure TokenExchange where
  mcpAccessToken : String
  alreadyUsed : Bool
deriving DecidableEq

/-- `FakeUpstreamInstallation` from `src/types.ts`. -/
structure FakeUpstreamInstallation where
  fakeAccessTokenForDemonstration : String
  fakeRefreshTokenForDemonstration : String
deriving DecidableEq

/-- `AzureInstallation` from `src/types.ts`. -/
structure AzureInstallation where
  accessToken : String
  idToken : Option String
  account : Option AccountInfo
  expiresOn : Option Nat
  userEmail : Option String
deriving DecidableEq

/-- `McpInstallation` from `src/types.ts`: the durable record of one
completed login, keyed by the broker access token. -/
structure McpInstallation where
  fakeUpstreamInstallation : Option FakeUpstreamInstallation
  azureInstallation : Option AzureInstallation
  mcpTokens : McpTokens
  clientId : String
  issuedAt : Nat
  userId : String
deriving DecidableEq

/-- The shared store (Redis) as four keyed namespaces: pending
authorizations and token exchanges keyed by broker code, installations
keyed by broker access token, and the refresh-token index. -/
structure Store where
  pending : String → Option PendingAuthorization
  exchanges : String → Option TokenExchange
  installations : String → Option McpInstallation
  refreshMap : String → Option String

/-- The store with every key absent. -/
def emptyStore : Store :=
  { pending := fun _ => none
    exchanges := fun _ => none
    installations := fun _ => none
    refreshMap := fun _ => none }

/-- Modelled from the spec: `readPendingAuthorization` in the missing
`src/services/auth.ts` is the Pending Authorization Store `consume`
operation, which "reads and deletes atomically - a second call for the
same code must return not-found". -/
def readPendingAuthorization (s : Store) (code : String) :
    Option PendingAuthorization × Store :=
  match s.pending code with
  | none => (none, s)
  | some p => (some p, { s with pending := setKey s.pending code none })

/-- Modelled from the spec: `saveMcpInstallation` in the missing
`src/services/auth.ts` writes the Installation under the broker access
token. -/
def saveMcpInstallation (s : Store) (token : String) (inst : McpInstallation) : Store :=
  { s with installations := setKey s.installations token (some inst) }

/-- Modelled from the spec: `readMcpInstallation` in the missing
`src/services/auth.ts` is the Installation Store read,
`read(accessToken) -> installation | not_found`; an expired record is
absent. -/
def readMcpInstallation (s : Store) (token : String) : Option McpInstallation :=
  s.installations token

/-- Modelled from the spec: `saveRefreshToken` in the missing
`src/services/auth.ts` writes the RefreshMapping entry from broker
refresh token to broker access token. -/
def saveRefreshToken (s : Store) (refreshToken accessToken : String) : Store :=
  { s with refreshMap := setKey s.refreshMap refreshToken (some accessToken) }

/-- The handler guards the refresh-mapping write with JavaScript
truthiness on `mcpTokens.refresh_token` (azureauth.ts lines 154-156). -/
def saveRefreshTokenOpt (s : Store) (rt : Option String) (accessToken : String) : Store :=
  match rt with
  | none => s
  | some r => if r = "" then s else saveRefreshToken s r accessToken

/-- Modelled from the spec: `saveTokenExchange` in the missing
`src/services/auth.ts` is the Token Exchange Ledger `publish`, writing a
fresh record for the broker code. -/
def saveTokenExchange (s : Store) (code : String) (ex : TokenExchange) : Store :=
  { s with exchanges := setKey s.exchanges code (some ex) }

/-- Modelled from the spec: `beginAuthorization` writes a
PendingAuthorization under a broker-issued code. -/
def beginAuthorization (s : Store) (code : String) (p : PendingAuthorization) : Store :=
  { s with pending := setKey s.pending code (some p) }

/-- Result of a Token Exchange Ledger redemption: the spec requires the
"already redeemed" and "not found" failures to be distinct. -/
inductive RedeemResult where
  | success (accessToken : String)
  | alreadyRedeemed
  | notFound
deriving DecidableEq

/-- Modelled from the spec: the Token Exchange Ledger `redeem` is an
atomic check-and-set - read the record and, if `used == false`, set
`used = true` and return the access token in one indivisible operation;
if already used or absent, fail with a distinct error. -/
def redeem (s : Store) (code : String) : RedeemResult × Store :=
  match s.exchanges code with
  | none => (RedeemResult.notFound, s)
  | some ex =>
    if ex.alreadyUsed then (RedeemResult.alreadyRedeemed, s)
    else (RedeemResult.success ex.mcpAccessToken,
      { s with exchanges :=
          setKey s.exchanges code (some { mcpAccessToken := ex.mcpAccessToken, alreadyUsed := true }) })

/-- A sequence of `n` redemption attempts for the same code.  Because
each redemption is a single atomic step against the shared store, any
concurrent interleaving of attempts is one such sequence. -/
def redeemSeq (s : Store) (code : String) : Nat → List RedeemResult × Store
  | 0 => ([], s)
  | n + 1 =>
    let r := redeem s code
    let rest := redeemSeq r.2 code n
    (r.1 :: rest.1, rest.2)

/-- Whether a redemption attempt returned tokens. -/
def isSuccess : RedeemResult → Bool
  | RedeemResult.success _ => true
  | _ => false

/-- Result of the Auth Facade `redeemCode` operation. -/
inductive RedeemCodeResult where
  | issued (accessToken : String)
  | pkceFailed
  | invalidGrant
deriving DecidableEq

/-- Modelled from the spec: the Auth Facade `redeemCode(brokerCode,
pkceVerifier)` "validates the PKCE verifier against the stored challenge
and then calls the Token Exchange Ledger's redeem"; an invalid verifier
is a client error, rejected with no store mutation.  The PKCE hash is an
abstract parameter (S256 is external crypto). -/
def redeemCode (hash : String → String) (s : Store) (code verifier : String) :
    RedeemCodeResult × Store :=
  match s.pending code with
  | none => (RedeemCodeResult.invalidGrant, s)
  | some p =>
    if hash verifier = p.codeChallenge then
      match redeem s code with
      | (RedeemResult.success t, s2) => (RedeemCodeResult.issued t, s2)
      | (_, s2) => (RedeemCodeResult.invalidGrant, s2)
    else (RedeemCodeResult.pkceFailed, s)

/-- The HTTP responses produced by the Azure callback handler. -/
inductive HttpResponse where
  | redirect (url : String)
  | badRequest (body : String)
  | serverError (body : String)
deriving DecidableEq

/-- The query parameters of the Azure callback request
(azureauth.ts lines 82-88); `none` models absent or non-string values. -/
structure CallbackQuery where
  state : Option String
  code : Option String
  error : Option String
  errorDescription : Option String
deriving DecidableEq

/-- A well-formed callback query: the broker code rides in `state`, the
upstream code in `code`, and no upstream error is reported. -/
def callbackQuery (mcpCode azureCode : String) : CallbackQuery :=
  { state := some mcpCode
    code := some azureCode
    error := none
    errorDescription := none }

/-- User id extraction (azureauth.ts line 131):
`account?.homeAccountId || account?.localAccountId || "unknown-user"`. -/
def upstreamUserId (tr : AzureTokenResponse) : String :=
  match tr.account with
  | none => "unknown-user"
  | some a =>
    if a.homeAccountId = "" then
      (if a.localAccountId = "" then "unknown-user" else a.localAccountId)
    else a.homeAccountId

/-- The McpInstallation built by the callback handler
(azureauth.ts lines 137-148); no `userEmail` is recorded. -/
def mkMcpInstallation (tr : AzureTokenResponse) (tokens : McpTokens)
    (p : PendingAuthorization) (now : Nat) : McpInstallation :=
  { fakeUpstreamInstallation := none
    azureInstallation := some
      { accessToken := tr.accessToken
        idToken := truthyOpt tr.idToken
        account := tr.account
        expiresOn := tr.expiresOn
        userEmail := none }
    mcpTokens := tokens
    clientId := p.clientId
    issuedAt := now
    userId := upstreamUserId tr }

/-- The client redirect built on success (azureauth.ts lines 164-167). -/
def redirectUrlFor (p : PendingAuthorization) (mcpCode : String) : String :=
  match p.state with
  | some st => p.redirectUri ++ "?code=" ++ mcpCode ++ "&state=" ++ st
  | none => p.redirectUri ++ "?code=" ++ mcpCode

/-- `handleAzureAuthorizeRedirect` (azureauth.ts lines 81-174).  The
upstream token exchange is an oracle argument: `none` models
`acquireTokenByCode` failing or returning no token; the freshly minted
broker tokens and the clock are likewise arguments.  Any thrown error is
caught and answered with the 500 response (lines 170-173). -/
def handleAzureAuthorizeRedirect (q : CallbackQuery)
    (upstream : Option AzureTokenResponse) (mcpTokens : McpTokens) (now : Nat)
    (s : Store) : HttpResponse × Store :=
  match truthyOpt q.error with
  | some e =>
    (HttpResponse.badRequest ("Authentication failed: " ++ ((truthyOpt q.errorDescription).getD e)), s)
  | none =>
    match q.state, q.code with
    | some mcpCode, some _azureCode =>
      match readPendingAuthorization s mcpCode with
      | (none, s1) => (HttpResponse.serverError "Error processing authentication callback", s1)
      | (some pendingAuth, s1) =>
        match upstream with
        | none => (HttpResponse.serverError "Error processing authentication callback", s1)
        | some tokenResponse =>
          let s2 := saveMcpInstallation s1 mcpTokens.access_token
            (mkMcpInstallation tokenResponse mcpTokens pendingAuth now)
          let s3 := saveRefreshTokenOpt s2 mcpTokens.refresh_token mcpTokens.access_token
          let s4 := saveTokenExchange s3 mcpCode
            { mcpAccessToken := mcpTokens.access_token, alreadyUsed := false }
          (HttpResponse.redirect (redirectUrlFor pendingAuth mcpCode), s4)
    | _, _ => (HttpResponse.serverError "Error processing authentication callback", s)

/-- Outcome of an Express middleware: pass control to the next handler,
or end the request with 401 or 403. -/
inductive MwOutcome where
  | next
  | unauthorized (wwwAuthenticate : String) (body : String)
  | forbidden (body : String)
deriving DecidableEq

/-- The `WWW-Authenticate` value set on verification failure. -/
def invalidTokenHeader : String := "Bearer error=\"invalid_token\""

/-- `authContext` (common.ts lines 36-66): reject when no auth info was
attached or the token resolves to no installation; otherwise run the
downstream handler inside the context. -/
def authContext (auth : Option String) (s : Store) : MwOutcome :=
  match auth with
  | none => MwOutcome.unauthorized invalidTokenHeader "Invalid access token"
  | some token =>
    match readMcpInstallation s token with
    | none => MwOutcome.unauthorized invalidTokenHeader "Invalid access token"
    | some _ => MwOutcome.next

/-- `APPROVED_USERS` parsing (config.ts lines 8-10): split the
comma-separated variable, trimming and lowercasing each entry; an
absent or empty variable yields the empty list. -/
def parseApprovedUsers (env : Option String) : List String :=
  match env with
  | none => []
  | some s => if s = "" then [] else (jsSplitCommas s).map (fun e => jsToLower (jsTrim e))

/-- `userAuthorization` (common.ts lines 72-111): skip entirely when no
approved-users list is configured; otherwise extract the bearer token,
resolve the installation, and gate Azure installations on the recorded
user email (lowercased) being in the list. -/
def userAuthorization (approved : List String) (authHeader : Option String)
    (s : Store) : MwOutcome :=
  match approved with
  | [] => MwOutcome.next
  | _ :: _ =>
    match authHeader with
    | none => MwOutcome.unauthorized invalidTokenHeader "Authorization header required"
    | some h =>
      let token := replaceFirst h "Bearer "
      if token = "" then
        MwOutcome.unauthorized invalidTokenHeader "Authorization header required"
      else
        match readMcpInstallation s token with
        | none => MwOutcome.unauthorized invalidTokenHeader "Invalid access token"
        | some inst =>
          match inst.azureInstallation with
          | none => MwOutcome.next
          | some az =>
            match az.userEmail with
            | none => MwOutcome.forbidden "User email not available"
            | some e =>
              if e = "" then MwOutcome.forbidden "User email not available"
              else if jsToLower e ∈ approved then MwOutcome.next
              else MwOutcome.forbidden "Access denied: user not approved for this MCP server"

/-- The three Azure environment variables read by the health check. -/
structure AzureEnv where
  clientId : Option String
  clientSecret : Option String
  authority : Option String
deriving DecidableEq

/-- JavaScript truthiness of an optional environment variable. -/
def envTruthy : Option String → Bool
  | none => false
  | some s => if s = "" then false else true

/-- The msal auth configuration built at module load
(azureauth.ts lines 20-25). -/
structure MsalAuthConfig where
  clientId : String
  clientSecret : String
  authority : String
deriving DecidableEq

/-- Build the msal auth configuration from the environment. -/
def msalConfig (env : AzureEnv) : MsalAuthConfig :=
  { clientId := env.clientId.getD ""
    clientSecret := env.clientSecret.getD ""
    authority :=
      match env.authority with
      | none => "https://login.microsoftonline.com/common"
      | some a => if a = "" then "https://login.microsoftonline.com/common" else a }

/-- The JSON body of the Azure health check response. -/
structure HealthResponse where
  configured : Bool
  authority : String
  clientId : String
deriving DecidableEq

/-- `handleAzureHealthCheck` (azureauth.ts lines 179-187). -/
def handleAzureHealthCheck (env : AzureEnv) : HealthResponse :=
  { configured := envTruthy env.clientId && envTruthy env.clientSecret && envTruthy env.authority
    authority := (msalConfig env).authority
    clientId :=
      if (msalConfig env).clientId = "" then "not set"
      else (msalConfig env).clientId.take 8 ++ "..." }

/-- An environment variable is set when it holds a non-empty value. -/
def envVarSet (o : Option String) : Prop := ∃ v, o = some v ∧ v ≠ ""

@[simp] lemma setKey_same {α : Type} (m : String → Option α) (k : String) (v : Option α) :
    setKey m k v k = v := by
  simp [setKey]

@[simp] lemma saveTokenExchange_pending (s : Store) (c : String) (ex : TokenExchange) :
    (saveTokenExchange s c ex).pending = s.pending := rfl

@[simp] lemma saveTokenExchange_installations (s : Store) (c : String) (ex : TokenExchange) :
    (saveTokenExchange s c ex).installations = s.installations := rfl

@[simp] lemma saveMcpInstallation_pending (s : Store) (t : String) (i : McpInstallation) :
    (saveMcpInstallation s t i).pending = s.pending := rfl

@[simp] lemma saveMcpInstallation_exchanges (s : Store) (t : String) (i : McpInstallation) :
    (saveMcpInstallation s t i).exchanges = s.exchanges := rfl

@[simp] lemma saveRefreshTokenOpt_pending (s : Store) (rt : Option String) (a : String) :
    (saveRefreshTokenOpt s rt a).pending = s.pending := by
  cases rt with
  | none => rfl
  | some r =>
    by_cases hr : r = "" <;> simp [saveRefreshTokenOpt, saveRefreshToken, hr]

@[simp] lemma saveRefreshTokenOpt_exchanges (s : Store) (rt : Option String) (a : String) :
    (saveRefreshTokenOpt s rt a).exchanges = s.exchanges := by
  cases rt with
  | none => rfl
  | some r =>
    by_cases hr : r = "" <;> simp [saveRefreshTokenOpt, saveRefreshToken, hr]

@[simp] lemma saveRefreshTokenOpt_installations (s : Store) (rt : Option String) (a : String) :
    (saveRefreshTokenOpt s rt a).installations = s.installations := by
  cases rt with
  | none => rfl
  | some r =>
    by_cases hr : r = "" <;> simp [saveRefreshTokenOpt, saveRefreshToken, hr]

lemma redeem_of_absent (s : Store) (c : String) (hs : s.exchanges c = none) :
    redeem s c = (RedeemResult.notFound, s) := by
  simp [redeem, hs]

lemma redeem_of_used (s : Store) (c : String) (ex : TokenExchange)
    (hs : s.exchanges c = some ex) (hu : ex.alreadyUsed = true) :
    redeem s c = (RedeemResult.alreadyRedeemed, s) := by
  simp [redeem, hs, hu]

lemma redeemSeq_of_used (s : Store) (c : String) (ex : TokenExchange)
    (hs : s.exchanges c = some ex) (hu : ex.alreadyUsed = true) (n : Nat) :
    redeemSeq s c n = (List.replicate n RedeemResult.alreadyRedeemed, s) := by
  induction n with
  | zero => simp [redeemSeq]
  | succ n ih =>
    simp [redeemSeq, redeem_of_used s c ex hs hu, ih, List.replicate_succ]

lemma filter_isSuccess_replicate (n : Nat) :
    List.filter isSuccess (List.replicate n RedeemResult.alreadyRedeemed) = [] := by
  induction n with
  | zero => simp
  | succ n ih => simp [List.replicate_succ, List.filter, isSuccess, ih]

/-- A concrete pending authorization used by the witnesses. -/
def pendingA : PendingAuthorization :=
  { redirectUri := "https://client.example/cb"
    codeChallenge := "challenge1"
    codeChallengeMethod := "S256"
    clientId := "client-1"
    state := some "st1" }

/-- Concrete broker tokens used by the witnesses. -/
def tokensA : McpTokens :=
  { access_token := "mcpAcc1", refresh_token := some "mcpRef1" }

/-- A concrete upstream token response used by the witnesses. -/
def upstreamA : AzureTokenResponse :=
  { accessToken := "azAcc1"
    idToken := none
    account := none
    expiresOn := none }

/-- A concrete unused token-exchange record used by the witnesses. -/
def exchangeA : TokenExchange :=
  { mcpAccessToken := "mcpAcc1", alreadyUsed := false }

/-- A store holding only a pending authorization for code `code1`. -/
def storeA : Store :=
  { emptyStore with pending := setKey emptyStore.pending "code1" (some pendingA) }

/-- A store holding only an unused token exchange for code `code1`. -/
def storeEx : Store :=
  { emptyStore with exchanges := setKey emptyStore.exchanges "code1" (some exchangeA) }

/-- A store holding both a pending authorization and an unused token
exchange for code `code1`. -/
def storePX : Store :=
  { emptyStore with
      pending := setKey emptyStore.pending "code1" (some pendingA)
      exchanges := setKey emptyStore.exchanges "code1" (some exchangeA) }

/-- Claim C1: once a TokenExchange record is published for a broker
code, redemption succeeds at most once.  In any sequence of `n + 1`
atomic redemption attempts starting from an unused record, the first
attempt succeeds with the recorded access token and every later attempt
fails with the "already redeemed" error; exactly one attempt succeeds;
the used flag ends (and stays) true; and the "already redeemed" error is
distinct from "not found". -/
theorem redeem_succeeds_exactly_once (s : Store) (c : String) (ex : TokenExchange) (n : Nat)
    (hs : s.exchanges c = some ex) (hu : ex.alreadyUsed = false) :
    (redeemSeq s c (n + 1)).1
        = RedeemResult.success ex.mcpAccessToken :: List.replicate n RedeemResult.alreadyRedeemed
  ∧ List.filter isSuccess (redeemSeq s c (n + 1)).1 = [RedeemResult.success ex.mcpAccessToken]
  ∧ (redeemSeq s c (n + 1)).2.exchanges c
      = some { mcpAccessToken := ex.mcpAccessToken, alreadyUsed := true }
  ∧ RedeemResult.alreadyRedeemed ≠ RedeemResult.notFound := by
  have hfst : (redeem s c).1 = RedeemResult.success ex.mcpAccessToken := by
    simp [redeem, hs, hu]
  have hs2 : (redeem s c).2.exchanges c
      = some { mcpAccessToken := ex.mcpAccessToken, alreadyUsed := true } := by
    simp [redeem, hs, hu]
  have h2 := redeemSeq_of_used _ c _ hs2 rfl n
  refine ⟨?_, ?_, ?_, by simp⟩
  · simp [redeemSeq, h2, hfst]
  · simp [redeemSeq, h2, hfst, List.filter, isSuccess, filter_isSuccess_replicate]
  · simp [redeemSeq, h2, hs2]

/-- Witness for C1 at a concrete store with three attempts. -/
theorem redeem_succeeds_exactly_once_witness :
    storeEx.exchanges "code1" = some exchangeA
  ∧ exchangeA.alreadyUsed = false
  ∧ (redeemSeq storeEx "code1" 3).1
      = RedeemResult.success exchangeA.mcpAccessToken
          :: List.replicate 2 RedeemResult.alreadyRedeemed :=
  ⟨rfl, rfl, (redeem_succeeds_exactly_once storeEx "code1" exchangeA 2 rfl rfl).1⟩

lemma handleRedirect_success_fst (s : Store) (c az : String) (p : PendingAuthorization)
    (tr : AzureTokenResponse) (tokens : McpTokens) (now : Nat)
    (hp : s.pending c = some p) :
    (handleAzureAuthorizeRedirect (callbackQuery c az) (some tr) tokens now s).1
      = HttpResponse.redirect (redirectUrlFor p c) := by
  simp [handleAzureAuthorizeRedirect, callbackQuery, truthyOpt, readPendingAuthorization, hp]

lemma handleRedirect_success_snd (s : Store) (c az : String) (p : PendingAuthorization)
    (tr : AzureTokenResponse) (tokens : McpTokens) (now : Nat)
    (hp : s.pending c = some p) :
    (handleAzureAuthorizeRedirect (callbackQuery c az) (some tr) tokens now s).2
      = saveTokenExchange
          (saveRefreshTokenOpt
            (saveMcpInstallation { s with pending := setKey s.pending c none }
              tokens.access_token (mkMcpInstallation tr tokens p now))
            tokens.refresh_token tokens.access_token)
          c { mcpAccessToken := tokens.access_token, alreadyUsed := false } := by
  simp [handleAzureAuthorizeRedirect, callbackQuery, truthyOpt, readPendingAuthorization, hp]

lemma handleRedirect_notFound (s : Store) (c az : String)
    (upstream : Option AzureTokenResponse) (tokens : McpTokens) (now : Nat)
    (hp : s.pending c = none) :
    handleAzureAuthorizeRedirect (callbackQuery c az) upstream tokens now s
      = (HttpResponse.serverError "Error processing authentication callback", s) := by
  cases upstream with
  | none =>
    simp [handleAzureAuthorizeRedirect, callbackQuery, truthyOpt, readPendingAuthorization, hp]
  | some tr =>
    simp [handleAzureAuthorizeRedirect, callbackQuery, truthyOpt, readPendingAuthorization, hp]

lemma handleRedirect_success_pending (s : Store) (c az : String) (p : PendingAuthorization)
    (tr : AzureTokenResponse) (tokens : McpTokens) (now : Nat)
    (hp : s.pending c = some p) :
    (handleAzureAuthorizeRedirect (callbackQuery c az) (some tr) tokens now s).2.pending c
      = none := by
  rw [handleRedirect_success_snd s c az p tr tokens now hp]
  simp

/-- Claim C2: consuming the PendingAuthorization at upstream-callback
time reads and deletes it atomically.  The first consume of code `c`
returns the record and removes it; a second consume returns not-found;
and after a successful callback completion for `c`, the pending record
is gone, so replaying the upstream callback for the same broker code
answers with the error response instead of completing again. -/
theorem pendingAuthorization_consume_once (s : Store) (c az : String)
    (p : PendingAuthorization) (tr : AzureTokenResponse) (tokens tokens2 : McpTokens)
    (now now2 : Nat) (hp : s.pending c = some p) :
    (readPendingAuthorization s c).1 = some p
  ∧ (readPendingAuthorization s c).2.pending c = none
  ∧ (readPendingAuthorization (readPendingAuthorization s c).2 c).1 = none
  ∧ (handleAzureAuthorizeRedirect (callbackQuery c az) (some tr) tokens now s).2.pending c = none
  ∧ (handleAzureAuthorizeRedirect (callbackQuery c az) (some tr) tokens2 now2
        (handleAzureAuthorizeRedirect (callbackQuery c az) (some tr) tokens now s).2).1
      = HttpResponse.serverError "Error processing authentication callback" := by
  have hgone := handleRedirect_success_pending s c az p tr tokens now hp
  refine ⟨?_, ?_, ?_, hgone, ?_⟩
  · simp [readPendingAuthorization, hp]
  · simp [readPendingAuthorization, hp]
  · simp [readPendingAuthorization, hp]
  · rw [handleRedirect_notFound _ c az (some tr) tokens2 now2 hgone]

/-- Witness for C2 at a concrete store and code. -/
theorem pendingAuthorization_consume_once_witness :
    storeA.pending "code1" = some pendingA
  ∧ (readPendingAuthorization storeA "code1").1 = some pendingA
  ∧ (readPendingAuthorization (readPendingAuthorization storeA "code1").2 "code1").1 = none :=
  ⟨rfl,
    (pendingAuthorization_consume_once storeA "code1" "az1" pendingA upstreamA
      tokensA tokensA 5 6 rfl).1,
    (pendingAuthorization_consume_once storeA "code1" "az1" pendingA upstreamA
      tokensA tokensA 5 6 rfl).2.2.1⟩

/-- Claim C3, settled against the code: when the upstream token exchange
fails after the pending authorization was consumed, the handler answers
with the 500 error (it does not redirect with the code), but it leaves
the PendingAuthorization consumed with no TokenExchange published for
that broker code - the state the claim says must never occur.  Evaluated
at a concrete failing input: a store holding a pending authorization for
`code1` and an upstream exchange that yields no token. -/
theorem callback_upstream_failure_leaves_consumed_pending :
    (handleAzureAuthorizeRedirect (callbackQuery "code1" "az1") none tokensA 5 storeA).1
      = HttpResponse.serverError "Error processing authentication callback"
  ∧ storeA.pending "code1" = some pendingA
  ∧ (handleAzureAuthorizeRedirect (callbackQuery "code1" "az1") none tokensA 5 storeA).2.pending "code1"
      = none
  ∧ (handleAzureAuthorizeRedirect (callbackQuery "code1" "az1") none tokensA 5 storeA).2.exchanges "code1"
      = none := by
  refine ⟨rfl, rfl, ?_, ?_⟩ <;>
    simp [handleAzureAuthorizeRedirect, callbackQuery, truthyOpt, readPendingAuthorization,
      storeA, emptyStore, setKey]

/-- Claim C6: a successful upstream callback redirects to the client
redirect URI stored in the PendingAuthorization, carrying the broker
code that keyed it, together with the recorded opaque client state when
one is present and only the code otherwise. -/
theorem callback_success_redirects_to_client (s : Store) (c az : String)
    (p : PendingAuthorization) (tr : AzureTokenResponse) (tokens : McpTokens) (now : Nat)
    (hp : s.pending c = some p) :
    (handleAzureAuthorizeRedirect (callbackQuery c az) (some tr) tokens now s).1
      = HttpResponse.redirect (redirectUrlFor p c)
  ∧ (∀ st, p.state = some st →
        redirectUrlFor p c = p.redirectUri ++ "?code=" ++ c ++ "&state=" ++ st)
  ∧ (p.state = none → redirectUrlFor p c = p.redirectUri ++ "?code=" ++ c) := by
  refine ⟨handleRedirect_success_fst s c az p tr tokens now hp, ?_, ?_⟩
  · intro st hst
    simp [redirectUrlFor, hst]
  · intro hst
    simp [redirectUrlFor, hst]

/-- Witness for C6 at a concrete store: the redirect carries the code
and the recorded state. -/
theorem callback_success_redirects_to_client_witness :
    storeA.pending "code1" = some pendingA
  ∧ (handleAzureAuthorizeRedirect (callbackQuery "code1" "az1") (some upstreamA) tokensA 5 storeA).1
      = HttpResponse.redirect (redirectUrlFor pendingA "code1")
  ∧ redirectUrlFor pendingA "code1" = "https://client.example/cb?code=code1&state=st1" := by
  refine ⟨rfl, (callback_success_redirects_to_client storeA "code1" "az1" pendingA
    upstreamA tokensA 5 rfl).1, ?_⟩
  have h := (callback_success_redirects_to_client storeA "code1" "az1" pendingA
    upstreamA tokensA 5 rfl).2.1 "st1" rfl
  rw [h]
  rfl

/-- Claim C4: with a PendingAuthorization stored for code `c` carrying
challenge `p.codeChallenge`, `redeemCode` fails whenever the supplied
verifier does not hash to that challenge - with no tokens returned and
no store mutation - even though this covers every store, in particular
those whose TokenExchange record for `c` exists and is still unused. -/
theorem redeemCode_rejects_bad_verifier (hash : String → String) (s : Store)
    (c v : String) (p : PendingAuthorization)
    (hp : s.pending c = some p) (hv : hash v ≠ p.codeChallenge) :
    redeemCode hash s c v = (RedeemCodeResult.pkceFailed, s)
  ∧ ∀ t, (redeemCode hash s c v).1 ≠ RedeemCodeResult.issued t := by
  have h : redeemCode hash s c v = (RedeemCodeResult.pkceFailed, s) := by
    simp [redeemCode, hp, hv]
  refine ⟨h, ?_⟩
  intro t
  rw [h]
  simp

/-- The PKCE hash used by the C4 witness. -/
def hashW : String → String := fun _ => "hashed"

/-- Witness for C4 at a concrete store that also holds an unused
TokenExchange for the same code. -/
theorem redeemCode_rejects_bad_verifier_witness :
    storePX.pending "code1" = some pendingA
  ∧ storePX.exchanges "code1" = some exchangeA
  ∧ exchangeA.alreadyUsed = false
  ∧ hashW "wrong-verifier" ≠ pendingA.codeChallenge
  ∧ redeemCode hashW storePX "code1" "wrong-verifier" = (RedeemCodeResult.pkceFailed, storePX) :=
  ⟨rfl, rfl, rfl, by decide,
    (redeemCode_rejects_bad_verifier hashW storePX "code1" "wrong-verifier" pendingA rfl
      (by decide)).1⟩

/-- Claim C5: beginAuthorization followed by a successful upstream
callback with the matching broker code publishes a TokenExchange whose
access token is exactly the key under which the Installation was saved;
redeeming the code therefore returns that token, and verifying the
redeemed token finds the Installation written during callback
completion. -/
theorem begin_complete_redeem_consistent (s0 : Store) (c az : String)
    (p : PendingAuthorization) (tr : AzureTokenResponse) (tokens : McpTokens) (now : Nat) :
    (handleAzureAuthorizeRedirect (callbackQuery c az) (some tr) tokens now
        (beginAuthorization s0 c p)).2.exchanges c
      = some { mcpAccessToken := tokens.access_token, alreadyUsed := false }
  ∧ (handleAzureAuthorizeRedirect (callbackQuery c az) (some tr) tokens now
        (beginAuthorization s0 c p)).2.installations tokens.access_token
      = some (mkMcpInstallation tr tokens p now)
  ∧ (redeem (handleAzureAuthorizeRedirect (callbackQuery c az) (some tr) tokens now
        (beginAuthorization s0 c p)).2 c).1
      = RedeemResult.success tokens.access_token
  ∧ readMcpInstallation
      (redeem (handleAzureAuthorizeRedirect (callbackQuery c az) (some tr) tokens now
        (beginAuthorization s0 c p)).2 c).2
      tokens.access_token
      = some (mkMcpInstallation tr tokens p now) := by
  have hp : (beginAuthorization s0 c p).pending c = some p := by
    simp [beginAuthorization]
  have hsnd := handleRedirect_success_snd (beginAuthorization s0 c p) c az p tr tokens now hp
  have hex : (handleAzureAuthorizeRedirect (callbackQuery c az) (some tr) tokens now
      (beginAuthorization s0 c p)).2.exchanges c
        = some { mcpAccessToken := tokens.access_token, alreadyUsed := false } := by
    rw [hsnd]
    simp [saveTokenExchange]
  have hinst : (handleAzureAuthorizeRedirect (callbackQuery c az) (some tr) tokens now
      (beginAuthorization s0 c p)).2.installations tokens.access_token
        = some (mkMcpInstallation tr tokens p now) := by
    rw [hsnd]
    simp [saveMcpInstallation]
  refine ⟨hex, hinst, ?_, ?_⟩
  · simp [redeem, hex]
  · simp [redeem, hex, readMcpInstallation, hinst]

/-- Claim C7: the authContext verification middleware rejects any
request whose bearer token does not resolve to an Installation - token
absent, or lookup returning not-found (unknown or expired) - with the
401 invalid_token surface, and it passes control to the downstream
handler only when the lookup succeeds, so it never fails open. -/
theorem authContext_fails_closed (a : Option String) (s : Store) :
    ((a = none ∨ ∃ t, a = some t ∧ readMcpInstallation s t = none) →
        authContext a s = MwOutcome.unauthorized invalidTokenHeader "Invalid access token")
  ∧ (authContext a s = MwOutcome.next →
        ∃ t inst, a = some t ∧ readMcpInstallation s t = some inst) := by
  constructor
  · rintro (ha | ⟨t, ha, hr⟩)
    · simp [authContext, ha]
    · simp [authContext, ha, hr]
  · intro h
    cases a with
    | none => simp [authContext] at h
    | some t =>
      cases hr : readMcpInstallation s t with
      | none => simp [authContext, hr] at h
      | some inst => exact ⟨t, inst, rfl, hr⟩

/-- Witness for C7: an absent token and an unknown token are both
rejected with the invalid_token error surface on a concrete store. -/
theorem authContext_fails_closed_witness :
    authContext none emptyStore
        = MwOutcome.unauthorized invalidTokenHeader "Invalid access token"
  ∧ authContext (some "unknown-token") emptyStore
        = MwOutcome.unauthorized invalidTokenHeader "Invalid access token" :=
  ⟨(authContext_fails_closed none emptyStore).1 (Or.inl rfl),
    (authContext_fails_closed (some "unknown-token") emptyStore).1
      (Or.inr ⟨"unknown-token", rfl, rfl⟩)⟩

/-- Claim C8: the Azure health check reports the provider as configured
exactly when the client identifier, client secret and authority are all
set (to a non-empty value) in the environment, and reports
`configured: false` whenever any of the three is absent. -/
theorem healthCheck_configured_iff (env : AzureEnv) :
    ((handleAzureHealthCheck env).configured = true ↔
        (envVarSet env.clientId ∧ envVarSet env.clientSecret ∧ envVarSet env.authority))
  ∧ ((env.clientId = none ∨ env.clientSecret = none ∨ env.authority = none) →
        (handleAzureHealthCheck env).configured = false) := by
  have htruthy : ∀ o : Option String, envTruthy o = true ↔ envVarSet o := by
    intro o
    cases o with
    | none => simp [envTruthy, envVarSet]
    | some v =>
      by_cases hv : v = "" <;> simp [envTruthy, envVarSet, hv]
  constructor
  · simp only [handleAzureHealthCheck, Bool.and_eq_true]
    rw [htruthy, htruthy, htruthy]
    tauto
  · rintro (h | h | h) <;>
      simp [handleAzureHealthCheck, h, envTruthy]

/-- Witness for C8: a fully configured environment reports true, and
one missing the client secret reports false. -/
theorem healthCheck_configured_iff_witness :
    (handleAzureHealthCheck
        { clientId := some "cid-12345", clientSecret := some "sec-1", authority := some "https://login.microsoftonline.com/tenant" }).configured
      = true
  ∧ (handleAzureHealthCheck
        { clientId := some "cid-12345", clientSecret := none, authority := some "https://login.microsoftonline.com/tenant" }).configured
      = false :=
  ⟨(healthCheck_configured_iff _).1.mpr
      ⟨⟨"cid-12345", rfl, by decide⟩, ⟨"sec-1", rfl, by decide⟩,
        ⟨"https://login.microsoftonline.com/tenant", rfl, by decide⟩⟩,
    (healthCheck_configured_iff _).2 (Or.inr (Or.inl rfl))⟩

/-- Claim C9: with an empty approved-users list the userAuthorization
middleware passes every request through to the next handler, for every
Authorization header (including none at all) and every store state - so
it inspects neither. -/
theorem userAuthorization_empty_list_passes (h : Option String) (s : Store) :
    userAuthorization [] h s = MwOutcome.next := rfl

/-- Claim C10: with a non-empty approved-users list and a presented
token resolving to an installation, the userAuthorization middleware
passes non-Azure installations through regardless of the list; forbids
Azure installations lacking a user email with the 403 response; and
passes an Azure installation exactly when its lowercased user email is
in the (lowercased) configured list - equivalently, when the email
matches some raw APPROVED_USERS entry case-insensitively after
trimming. -/
theorem userAuthorization_azure_gating (approved : List String) (hdr : String)
    (s : Store) (inst : McpInstallation)
    (hne : approved ≠ [])
    (hs : readMcpInstallation s (replaceFirst hdr "Bearer ") = some inst)
    (htok : replaceFirst hdr "Bearer " ≠ "") :
    (inst.azureInstallation = none →
        userAuthorization approved (some hdr) s = MwOutcome.next)
  ∧ (∀ az, inst.azureInstallation = some az → az.userEmail = none →
        userAuthorization approved (some hdr) s = MwOutcome.forbidden "User email not available")
  ∧ (∀ az e, inst.azureInstallation = some az → az.userEmail = some e → e ≠ "" →
        (userAuthorization approved (some hdr) s = MwOutcome.next ↔ jsToLower e ∈ approved))
  ∧ (∀ az e raw, approved = parseApprovedUsers (some raw) →
        inst.azureInstallation = some az → az.userEmail = some e → e ≠ "" →
        (userAuthorization approved (some hdr) s = MwOutcome.next ↔
          ∃ x ∈ jsSplitCommas raw, jsToLower (jsTrim x) = jsToLower e)) := by
  cases approved with
  | nil => exact absurd rfl hne
  | cons a as =>
    have hiff : ∀ az e, inst.azureInstallation = some az → az.userEmail = some e → e ≠ "" →
        (userAuthorization (a :: as) (some hdr) s = MwOutcome.next ↔ jsToLower e ∈ a :: as) := by
      intro az e haz he hne2
      by_cases hm : jsToLower e ∈ a :: as <;>
        simp [userAuthorization, hs, htok, haz, he, hne2, hm]
    refine ⟨?_, ?_, hiff, ?_⟩
    · intro haz
      simp [userAuthorization, hs, htok, haz]
    · intro az haz he
      simp [userAuthorization, hs, htok, haz, he]
    · intro az e raw hraw haz he hne2
      rw [hiff az e haz he hne2, hraw]
      by_cases hr0 : raw = ""
      · rw [hr0] at hraw
        simp [parseApprovedUsers] at hraw
      · simp [parseApprovedUsers, hr0, List.mem_map]

/-- The Azure installation carried by the C10 witness: its recorded user
email matches an approved entry only case-insensitively. -/
def azureInstW : AzureInstallation :=
  { accessToken := "azAcc1"
    idToken := none
    account := none
    expiresOn := none
    userEmail := some "User@Example.com" }

/-- The installation record used by the C10 witness. -/
def instW : McpInstallation :=
  { fakeUpstreamInstallation := none
    azureInstallation := some azureInstW
    mcpTokens := tokensA
    clientId := "client-1"
    issuedAt := 5
    userId := "user-1" }

/-- A store holding the C10 witness installation under token `mcpAcc1`. -/
def storeW : Store :=
  { emptyStore with installations := setKey emptyStore.installations "mcpAcc1" (some instW) }

/-- The configured approved-users list used by the C10 witness. -/
def approvedW : List String := parseApprovedUsers (some "User@Example.com, other@x.com")

/-- Witness for C10: a mixed-case recorded email is admitted against the
lowercased configured list. -/
theorem userAuthorization_azure_gating_witness :
    approvedW ≠ []
  ∧ readMcpInstallation storeW (replaceFirst "Bearer mcpAcc1" "Bearer ") = some instW
  ∧ userAuthorization approvedW (some "Bearer mcpAcc1") storeW = MwOutcome.next :=
  ⟨by decide, by decide,
    ((userAuthorization_azure_gating approvedW "Bearer mcpAcc1" storeW instW
        (by decide) (by decide) (by decide)).2.2.1 azureInstW "User@Example.com" rfl rfl
      (by decide)).mpr (by decide)⟩
